import Mathlib

/-!
Verification development for the `serde-keyvalue` serializer
(`src/serializer.rs`).

The serializer turns a single flat record into a line of text
`key1=value1 key2=value2 ...`.  We embed the serializer state, the
`Serializer` trait methods implemented by `&mut KeyValueSerializer`, and
the `SerializeStruct` methods of `KeyValueSerializerCounted` as Lean
functions.  Rust control-flow outcomes are modelled explicitly:
`Ok` becomes `Outcome.ok`, `Err(std::fmt::Error)` becomes
`Outcome.fmtErr`, and a panic (`unimplemented!` / `unreachable!` /
arithmetic overflow) becomes `Outcome.panic msg` — a panic aborts the
whole computation, so it propagates like an error but is a distinct
outcome from a returned `Err`.

Machine integers: an `iN` argument is modelled by its bit pattern, a
`Nat` below `2 ^ N`; the cast `v as i64` is sign extension of the
pattern, and `to_string` prints the two's-complement value of the
resulting 64-bit pattern.  `uN` arguments are plain `Nat`s below `2 ^ N`
(the cast `v as u64` is zero extension, which preserves the `Nat`).

Floating-point fields of the Rust source (`serialize_f32`/`serialize_f64`)
are not modelled: no claim about them is considered here and their text
rendering is platform formatting.
-/

namespace SerdeKeyValue

/-- Outcome of running a piece of serializer code: normal return,
returned `Err(std::fmt::Error)`, or a panic. -/
inductive Outcome (α : Type) where
  | ok (a : α)
  | fmtErr
  | panic (msg : String)
deriving DecidableEq

/-- The serializer state: `KeyValueSerializer { top_parsed, output }`. -/
structure KeyValueSerializer where
  top_parsed : Bool
  output : String
deriving DecidableEq

namespace KeyValueSerializer

/-- Rust `KeyValueSerializer::new()`. -/
def new : KeyValueSerializer := { top_parsed := false, output := "" }

/-- Rust `KeyValueSerializer::into_output(self)`. -/
def into_output (s : KeyValueSerializer) : String := s.output

end KeyValueSerializer

/-- Two's-complement value of an `N`-bit pattern `n < 2 ^ N`. -/
def twosComplement (N : Nat) (n : Nat) : Int :=
  if n < 2 ^ (N - 1) then (n : Int) else (n : Int) - 2 ^ N

/-- Sign extension of an `N`-bit pattern to a 64-bit pattern:
the Rust cast `v as i64` on a signed `N`-bit integer. -/
def signExtend64 (N : Nat) (n : Nat) : Nat :=
  if n < 2 ^ (N - 1) then n else n + (2 ^ 64 - 2 ^ N)

/-- Base-10 text of a signed integer, a leading minus sign for negative
values: the result of `i64::to_string`. -/
def decimalSigned (v : Int) : String :=
  if v < 0 then "-" ++ Nat.repr v.natAbs else Nat.repr v.natAbs

/-- Base-10 text of an unsigned integer: the result of `u64::to_string`. -/
def decimalUnsigned (v : Nat) : String := Nat.repr v

/-- Rust `KeyValueSerializer::serialize_signed(&mut self, v: i64)`: pushes
`v.to_string()` onto the output.  The `i64` argument is a 64-bit
pattern. -/
def serialize_signed (s : KeyValueSerializer) (n : Nat) :
    Outcome KeyValueSerializer :=
  .ok { s with output := s.output ++ decimalSigned (twosComplement 64 n) }

/-- Rust `KeyValueSerializer::serialize_unsigned(&mut self, v: u64)`: pushes
`v.to_string()` onto the output. -/
def serialize_unsigned (s : KeyValueSerializer) (n : Nat) :
    Outcome KeyValueSerializer :=
  .ok { s with output := s.output ++ decimalUnsigned n }

/-- Rust `serialize_bool`: pushes `"True"` or `"False"`. -/
def serialize_bool (s : KeyValueSerializer) (v : Bool) :
    Outcome KeyValueSerializer :=
  .ok { s with output := s.output ++ (if v then "True" else "False") }

/-- Rust `serialize_i8(v: i8)`: `self.serialize_signed(v as i64)`. -/
def serialize_i8 (s : KeyValueSerializer) (n : Nat) :
    Outcome KeyValueSerializer :=
  serialize_signed s (signExtend64 8 n)

/-- Rust `serialize_i16(v: i16)`: `self.serialize_signed(v as i64)`. -/
def serialize_i16 (s : KeyValueSerializer) (n : Nat) :
    Outcome KeyValueSerializer :=
  serialize_signed s (signExtend64 16 n)

/-- Rust `serialize_i32(v: i32)`: `self.serialize_signed(v as i64)`. -/
def serialize_i32 (s : KeyValueSerializer) (n : Nat) :
    Outcome KeyValueSerializer :=
  serialize_signed s (signExtend64 32 n)

/-- Rust `serialize_i64(v: i64)`: `self.serialize_signed(v)`. -/
def serialize_i64 (s : KeyValueSerializer) (n : Nat) :
    Outcome KeyValueSerializer :=
  serialize_signed s n

/-- Rust `serialize_u8(v: u8)`: `self.serialize_unsigned(v as u64)`;
zero extension preserves the `Nat`. -/
def serialize_u8 (s : KeyValueSerializer) (n : Nat) :
    Outcome KeyValueSerializer :=
  serialize_unsigned s n

/-- Rust `serialize_u16(v: u16)`: `self.serialize_unsigned(v as u64)`. -/
def serialize_u16 (s : KeyValueSerializer) (n : Nat) :
    Outcome KeyValueSerializer :=
  serialize_unsigned s n

/-- Rust `serialize_u32(v: u32)`: `self.serialize_unsigned(v as u64)`. -/
def serialize_u32 (s : KeyValueSerializer) (n : Nat) :
    Outcome KeyValueSerializer :=
  serialize_unsigned s n

/-- Rust `serialize_u64(v: u64)`: `self.serialize_unsigned(v)`. -/
def serialize_u64 (s : KeyValueSerializer) (n : Nat) :
    Outcome KeyValueSerializer :=
  serialize_unsigned s n

/-- Rust `serialize_char`: `self.output.push(v)`. -/
def serialize_char (s : KeyValueSerializer) (c : Char) :
    Outcome KeyValueSerializer :=
  .ok { s with output := s.output.push c }

/-- Rust `serialize_str`: `self.output.push_str(v)`. -/
def serialize_str (s : KeyValueSerializer) (v : String) :
    Outcome KeyValueSerializer :=
  .ok { s with output := s.output ++ v }

/-- Rust `serialize_bytes`: `unimplemented!()` — a panic. -/
def serialize_bytes (_s : KeyValueSerializer) (_v : List Nat) :
    Outcome KeyValueSerializer :=
  .panic "not implemented"

/-- Rust `serialize_none`: `unreachable!("None should have been skipped in
serialization")` — a panic. -/
def serialize_none (_s : KeyValueSerializer) : Outcome KeyValueSerializer :=
  .panic "None should have been skipped in serialization"

/-- Rust `serialize_unit`: writes nothing. -/
def serialize_unit (s : KeyValueSerializer) : Outcome KeyValueSerializer :=
  .ok s

/-- Rust `serialize_unit_struct`: `self.serialize_unit()`. -/
def serialize_unit_struct (s : KeyValueSerializer) (_name : String) :
    Outcome KeyValueSerializer :=
  serialize_unit s

/-- Rust `serialize_unit_variant`: pushes the bare variant name. -/
def serialize_unit_variant (s : KeyValueSerializer) (_name : String)
    (_variant_index : Nat) (variant : String) : Outcome KeyValueSerializer :=
  .ok { s with output := s.output ++ variant }

/-- Rust `serialize_struct(name, len)`: accepts the record only if
`top_parsed` is still false, setting the flag and handing back a
collector whose counter is `len`; otherwise `Err(std::fmt::Error)`. -/
def serialize_struct (s : KeyValueSerializer) (_name : String) (len : Nat) :
    Outcome (KeyValueSerializer × Nat) :=
  if !s.top_parsed then .ok ({ s with top_parsed := true }, len)
  else .fmtErr

/-- Rust `skip_field(&mut self, _)`: `self.1 -= 1`, an unconditional
decrement of the counter; at counter 0 the `usize` subtraction
overflows, a panic (debug semantics). -/
def skip_field (s : KeyValueSerializer) (c : Nat) (_key : String) :
    Outcome (KeyValueSerializer × Nat) :=
  if c = 0 then .panic "attempt to subtract with overflow"
  else .ok (s, c - 1)

/-- The values the serde data model can offer the dispatcher.  Signed
integers carry their bit pattern (a `Nat` below `2 ^ N`); record fields
carry `none` for a value that is absent (to be skipped) and `some v`
for a present value. -/
inductive Value where
  | vBool (b : Bool)
  | vI8 (n : Nat)
  | vI16 (n : Nat)
  | vI32 (n : Nat)
  | vI64 (n : Nat)
  | vU8 (n : Nat)
  | vU16 (n : Nat)
  | vU32 (n : Nat)
  | vU64 (n : Nat)
  | vChar (c : Char)
  | vStr (t : String)
  | vBytes (bs : List Nat)
  | vNone
  | vSome (v : Value)
  | vUnit
  | vUnitStruct (name : String)
  | vUnitVariant (name : String) (idx : Nat) (variant : String)
  | vNewtypeStruct (name : String) (v : Value)
  | vNewtypeVariant (name : String) (idx : Nat) (variant : String) (v : Value)
  | vSeq (xs : List Value)
  | vTuple (xs : List Value)
  | vTupleStruct (name : String) (xs : List Value)
  | vTupleVariant (name : String) (idx : Nat) (variant : String)
      (xs : List Value)
  | vMap (xs : List (Value × Value))
  | vStruct (name : String) (fields : List (String × Option Value))
  | vStructVariant (name : String) (idx : Nat) (variant : String)
      (fields : List (String × Value))

mutual

/-- Rust `value.serialize(&mut serializer)`: dispatch on the kind of the
value, exactly as the `Serializer` impl does.  A record is driven
through `serialize_struct`, then one `serialize_field`/`skip_field`
call per declared field in declared order (counter = declared field
count), then `end`. -/
def serializeValue (s : KeyValueSerializer) : Value →
    Outcome KeyValueSerializer
  | .vBool b => serialize_bool s b
  | .vI8 n => serialize_i8 s n
  | .vI16 n => serialize_i16 s n
  | .vI32 n => serialize_i32 s n
  | .vI64 n => serialize_i64 s n
  | .vU8 n => serialize_u8 s n
  | .vU16 n => serialize_u16 s n
  | .vU32 n => serialize_u32 s n
  | .vU64 n => serialize_u64 s n
  | .vChar c => serialize_char s c
  | .vStr t => serialize_str s t
  | .vBytes bs => serialize_bytes s bs
  | .vNone => serialize_none s
  | .vSome v => serializeValue s v
  | .vUnit => serialize_unit s
  | .vUnitStruct name => serialize_unit_struct s name
  | .vUnitVariant name idx variant => serialize_unit_variant s name idx variant
  | .vNewtypeStruct _ v => serializeValue s v
  | .vNewtypeVariant _ _ _ v => serializeValue s v
  | .vSeq _ => .panic "not implemented"
  | .vTuple _ => .panic "not implemented"
  | .vTupleStruct _ _ => .panic "not implemented"
  | .vTupleVariant _ _ _ _ => .panic "not implemented"
  | .vMap _ => .panic "not implemented"
  | .vStruct name fields =>
    match serialize_struct s name fields.length with
    | .ok (s1, c) =>
      match runFields s1 c fields with
      | .ok (s2, _) => .ok s2
      | .fmtErr => .fmtErr
      | .panic m => .panic m
    | .fmtErr => .fmtErr
    | .panic m => .panic m
  | .vStructVariant _ _ _ _ => .panic "not implemented"

/-- Drive the Field Collector over the declared fields in order:
`skip_field` for an absent field, `serialize_field` for a present one
(the body of `serialize_field` is inlined: push `key`, push `'='`,
serialize the value, then if the counter is greater than 1 decrement it
and push a space). -/
def runFields (s : KeyValueSerializer) (c : Nat) :
    List (String × Option Value) → Outcome (KeyValueSerializer × Nat)
  | [] => .ok (s, c)
  | (_key, none) :: rest =>
    if c = 0 then .panic "attempt to subtract with overflow"
    else runFields s (c - 1) rest
  | (key, some v) :: rest =>
    match serializeValue { s with output := s.output ++ key ++ "=" } v with
    | .ok s1 =>
      if 1 < c then
        runFields { s1 with output := s1.output ++ " " } (c - 1) rest
      else runFields s1 c rest
    | .fmtErr => .fmtErr
    | .panic m => .panic m

end

/-- Rust `serialize_field(&mut self, key, value)` of the `SerializeStruct`
impl, as a standalone state transition on the collector `(serializer,
counter)`: push `key`, push `'='`, serialize the value (propagating its
failure), then if the counter is greater than 1 decrement it and push a
single space; otherwise leave the counter unchanged. -/
def serialize_field (s : KeyValueSerializer) (c : Nat) (key : String)
    (v : Value) : Outcome (KeyValueSerializer × Nat) :=
  match serializeValue { s with output := s.output ++ key ++ "=" } v with
  | .ok s1 =>
    if 1 < c then .ok ({ s1 with output := s1.output ++ " " }, c - 1)
    else .ok (s1, c)
  | .fmtErr => .fmtErr
  | .panic m => .panic m

/-- Rust `end(self)` of the `SerializeStruct` impl: returns `Ok(())`,
writing nothing. -/
def struct_end (s : KeyValueSerializer) (_c : Nat) :
    Outcome KeyValueSerializer :=
  .ok s

/-- Serialize one value on a fresh serializer and extract the output,
as in `let mut serializer = KeyValueSerializer::new();
value.serialize(&mut serializer)?; serializer.into_output()`. -/
def encode (v : Value) : Outcome String :=
  match serializeValue KeyValueSerializer.new v with
  | .ok s => .ok s.into_output
  | .fmtErr => .fmtErr
  | .panic m => .panic m

/-- The text a leaf value's rendering appends to the buffer: `none` for
records, compositional shapes and the absent marker, whose dispatch
does not append pure text. -/
def renderText : Value → Option String
  | .vBool b => some (if b then "True" else "False")
  | .vI8 n => some (decimalSigned (twosComplement 64 (signExtend64 8 n)))
  | .vI16 n => some (decimalSigned (twosComplement 64 (signExtend64 16 n)))
  | .vI32 n => some (decimalSigned (twosComplement 64 (signExtend64 32 n)))
  | .vI64 n => some (decimalSigned (twosComplement 64 n))
  | .vU8 n => some (decimalUnsigned n)
  | .vU16 n => some (decimalUnsigned n)
  | .vU32 n => some (decimalUnsigned n)
  | .vU64 n => some (decimalUnsigned n)
  | .vChar c => some (String.singleton c)
  | .vStr t => some t
  | .vSome v => renderText v
  | .vUnit => some ""
  | .vUnitStruct _ => some ""
  | .vUnitVariant _ _ variant => some variant
  | .vNewtypeStruct _ v => renderText v
  | .vNewtypeVariant _ _ _ v => renderText v
  | _ => none

/-- The `key=value` tokens of the present fields, in declared order. -/
def tokens (fields : List (String × Option Value)) : List String :=
  fields.filterMap fun kv =>
    kv.2.map fun v => kv.1 ++ "=" ++ (renderText v).getD ""

/-- Tokens joined by single spaces: no leading and no trailing space. -/
def joinSp : List String → String
  | [] => ""
  | [t] => t
  | t :: rest => t ++ " " ++ joinSp rest

/-- Whether the last declared field of the record is absent. -/
def lastAbsent : List (String × Option Value) → Bool
  | [] => false
  | [(_, ov)] => ov.isNone
  | _ :: rest => lastAbsent rest

/-- The number of absent fields of the record. -/
def absentCount (fields : List (String × Option Value)) : Nat :=
  (fields.filter fun kv => kv.2.isNone).length

/-- The text the Field Collector produces over the declared fields when
its counter starts at the declared field count: nothing for an absent
field; for a present field `key=text`, followed by one space unless the
field is the last *declared* field. -/
def recordText : List (String × Option Value) → String
  | [] => ""
  | (k, some v) :: rest =>
    k ++ "=" ++ (renderText v).getD "" ++
      (if rest.isEmpty then "" else " ") ++ recordText rest
  | (_, none) :: rest => recordText rest

/-- The stray trailing separator: a single space exactly when the
record has at least one present field and its last declared field is
absent; empty otherwise. -/
def trailingSp (fields : List (String × Option Value)) : String :=
  if tokens fields = [] then "" else if lastAbsent fields then " " else ""

/-- Decidable form of "every present field value is a renderable
leaf". -/
def fieldRenderable : (String × Option Value) → Bool
  | (_, none) => true
  | (_, some v) => (renderText v).isSome

theorem string_push_eq_append (s : String) (c : Char) :
    s.push c = s ++ String.singleton c := by
  apply String.ext
  simp [String.data_push, String.singleton]

/-- A leaf value whose `renderText` is `some t` serializes, from any
state, by appending exactly `t` to the output and leaving the
`top_parsed` flag unchanged. -/
theorem renderText_sound : ∀ (v : Value) (t : String),
    renderText v = some t → ∀ (s : KeyValueSerializer),
    serializeValue s v = .ok { s with output := s.output ++ t }
  | .vBool b, t, h, s => by
    simp only [renderText, Option.some.injEq] at h
    subst h
    simp [serializeValue, serialize_bool]
  | .vI8 n, t, h, s => by
    simp only [renderText, Option.some.injEq] at h
    subst h
    simp [serializeValue, serialize_i8, serialize_signed]
  | .vI16 n, t, h, s => by
    simp only [renderText, Option.some.injEq] at h
    subst h
    simp [serializeValue, serialize_i16, serialize_signed]
  | .vI32 n, t, h, s => by
    simp only [renderText, Option.some.injEq] at h
    subst h
    simp [serializeValue, serialize_i32, serialize_signed]
  | .vI64 n, t, h, s => by
    simp only [renderText, Option.some.injEq] at h
    subst h
    simp [serializeValue, serialize_i64, serialize_signed]
  | .vU8 n, t, h, s => by
    simp only [renderText, Option.some.injEq] at h
    subst h
    simp [serializeValue, serialize_u8, serialize_unsigned]
  | .vU16 n, t, h, s => by
    simp only [renderText, Option.some.injEq] at h
    subst h
    simp [serializeValue, serialize_u16, serialize_unsigned]
  | .vU32 n, t, h, s => by
    simp only [renderText, Option.some.injEq] at h
    subst h
    simp [serializeValue, serialize_u32, serialize_unsigned]
  | .vU64 n, t, h, s => by
    simp only [renderText, Option.some.injEq] at h
    subst h
    simp [serializeValue, serialize_u64, serialize_unsigned]
  | .vChar c, t, h, s => by
    simp only [renderText, Option.some.injEq] at h
    subst h
    simp [serializeValue, serialize_char, string_push_eq_append]
  | .vStr u, t, h, s => by
    simp only [renderText, Option.some.injEq] at h
    subst h
    simp [serializeValue, serialize_str]
  | .vSome v, t, h, s => by
    simp only [renderText] at h
    have ih := renderText_sound v t h s
    simpa [serializeValue] using ih
  | .vUnit, t, h, s => by
    simp only [renderText, Option.some.injEq] at h
    subst h
    simp [serializeValue, serialize_unit]
  | .vUnitStruct name, t, h, s => by
    simp only [renderText, Option.some.injEq] at h
    subst h
    simp [serializeValue, serialize_unit_struct, serialize_unit]
  | .vUnitVariant name idx variant, t, h, s => by
    simp only [renderText, Option.some.injEq] at h
    subst h
    simp [serializeValue, serialize_unit_variant]
  | .vNewtypeStruct name v, t, h, s => by
    simp only [renderText] at h
    have ih := renderText_sound v t h s
    simpa [serializeValue] using ih
  | .vNewtypeVariant name idx variant v, t, h, s => by
    simp only [renderText] at h
    have ih := renderText_sound v t h s
    simpa [serializeValue] using ih

/-- Running the Field Collector over the declared fields, counter
initialized to the declared field count, skip for absent and render for
present fields in declared order, appends exactly `recordText fields`
(provided every present value is a renderable leaf). -/
theorem runFields_renders : ∀ (fields : List (String × Option Value))
    (s : KeyValueSerializer),
    (∀ kv ∈ fields, ∀ v, kv.2 = some v → (renderText v).isSome) →
    ∃ cf, runFields s fields.length fields =
      .ok ({ s with output := s.output ++ recordText fields }, cf)
  | [], s, _ => ⟨0, by simp [runFields, recordText]⟩
  | (k, none) :: rest, s, H => by
    have ih := runFields_renders rest s fun kv hkv => H kv (by simp [hkv])
    obtain ⟨cf, hrun⟩ := ih
    refine ⟨cf, ?_⟩
    simp only [List.length_cons, runFields, Nat.succ_ne_zero, if_false,
      Nat.add_sub_cancel, recordText]
    exact hrun
  | (k, some v) :: rest, s, H => by
    have hv : (renderText v).isSome := H (k, some v) (by simp) v rfl
    obtain ⟨t, ht⟩ := Option.isSome_iff_exists.mp hv
    have hser := renderText_sound v t ht
      { s with output := s.output ++ k ++ "=" }
    cases rest with
    | nil =>
      refine ⟨1, ?_⟩
      simp only [List.length_cons, List.length_nil, runFields, hser]
      simp [runFields, recordText, ht, String.append_assoc,
        String.append_empty]
    | cons kv2 rest2 =>
      have ih := runFields_renders (kv2 :: rest2)
        { s with output := s.output ++ k ++ "=" ++ t ++ " " }
        fun kv hkv => H kv (by simp [hkv])
      obtain ⟨cf, hrun⟩ := ih
      refine ⟨cf, ?_⟩
      simp only [List.length_cons] at hrun
      simp only [List.length_cons, runFields, hser]
      rw [if_pos (by omega)]
      simp only [Nat.add_sub_cancel]
      rw [hrun]
      simp [recordText, ht, String.append_assoc]

theorem tokens_nil_lastAbsent : ∀ (fields : List (String × Option Value)),
    tokens fields = [] → fields ≠ [] → lastAbsent fields = true
  | [], _, hne => absurd rfl hne
  | (k, some v) :: rest, h, _ => by
    simp [tokens, List.filterMap_cons] at h
  | (k, none) :: rest, h, _ => by
    cases rest with
    | nil => simp [lastAbsent]
    | cons kv2 r2 =>
      have hrest : tokens (kv2 :: r2) = [] := by
        simpa [tokens, List.filterMap_cons] using h
      have := tokens_nil_lastAbsent (kv2 :: r2) hrest (by simp)
      simpa [lastAbsent] using this

theorem lastAbsent_all_present : ∀ (fields : List (String × Option Value)),
    (∀ kv ∈ fields, kv.2.isSome) → lastAbsent fields = false
  | [], _ => rfl
  | (k, ov) :: rest, H => by
    cases rest with
    | nil =>
      have h := H (k, ov) (by simp)
      cases ov with
      | none => simp at h
      | some v => simp [lastAbsent]
    | cons kv2 r2 =>
      have := lastAbsent_all_present (kv2 :: r2) fun kv hkv => H kv (by simp [hkv])
      simpa [lastAbsent] using this

/-- The Field Collector's text is the present `key=value` tokens joined
by single spaces, with a stray trailing space exactly when a present
field exists and the last declared field is absent. -/
theorem recordText_eq_joinSp : ∀ (fields : List (String × Option Value)),
    recordText fields = joinSp (tokens fields) ++ trailingSp fields
  | [] => by simp [recordText, tokens, joinSp, trailingSp]
  | (k, some v) :: rest => by
    have ih := recordText_eq_joinSp rest
    have htok : tokens ((k, some v) :: rest) =
        (k ++ "=" ++ (renderText v).getD "") :: tokens rest := by
      simp [tokens, List.filterMap_cons]
    cases rest with
    | nil =>
      simp [recordText, htok, joinSp, trailingSp, tokens, lastAbsent,
        String.append_empty]
    | cons kv2 r2 =>
      rw [recordText, ih, htok]
      rcases htr : tokens (kv2 :: r2) with _ | ⟨tok2, more⟩
      · have hlast : lastAbsent (kv2 :: r2) = true :=
          tokens_nil_lastAbsent (kv2 :: r2) htr (by simp)
        simp [joinSp, trailingSp, htok, htr, hlast, lastAbsent,
          String.append_assoc, String.append_empty]
      · have hlast : lastAbsent ((k, some v) :: kv2 :: r2)
            = lastAbsent (kv2 :: r2) := by simp [lastAbsent]
        simp only [joinSp, trailingSp, htok, htr, hlast, List.isEmpty_cons,
          if_false]
        simp [String.append_assoc]
  | (k, none) :: rest => by
    have ih := recordText_eq_joinSp rest
    have htok : tokens ((k, none) :: rest) = tokens rest := by
      simp [tokens, List.filterMap_cons]
    cases rest with
    | nil => simp [recordText, tokens, joinSp, trailingSp]
    | cons kv2 r2 =>
      have hlast : lastAbsent ((k, none) :: kv2 :: r2)
          = lastAbsent (kv2 :: r2) := by simp [lastAbsent]
      rw [recordText, ih, htok]
      simp only [trailingSp, htok, hlast]

theorem absentCount_le : ∀ (fields : List (String × Option Value)),
    absentCount fields ≤ fields.length := by
  intro fields
  exact List.length_filter_le _ fields

/-- Token count: one token per present field, `N - k` in all. -/
theorem tokens_length : ∀ (fields : List (String × Option Value)),
    (tokens fields).length = fields.length - absentCount fields
  | [] => rfl
  | (k, some v) :: rest => by
    have ih := tokens_length rest
    have hle := absentCount_le rest
    simp [tokens, List.filterMap_cons, absentCount, List.filter_cons] at *
    omega
  | (k, none) :: rest => by
    have ih := tokens_length rest
    simp [tokens, List.filterMap_cons, absentCount, List.filter_cons] at *
    omega

theorem fieldRenderable_spec (fields : List (String × Option Value))
    (H : fields.all fieldRenderable = true) :
    ∀ kv ∈ fields, ∀ v, kv.2 = some v → (renderText v).isSome := by
  intro kv hkv v hv
  have h := List.all_eq_true.mp H kv hkv
  obtain ⟨k, ov⟩ := kv
  cases ov with
  | none => cases hv
  | some w =>
    obtain rfl : w = v := by injection hv
    simpa [fieldRenderable] using h

theorem absentCount_all_present (fields : List (String × Option Value))
    (H : fields.all (fun kv => kv.2.isSome) = true) :
    absentCount fields = 0 := by
  simp only [absentCount, List.length_eq_zero, List.filter_eq_nil_iff]
  intro kv hkv
  have h := List.all_eq_true.mp H kv hkv
  simp only [Option.isSome] at h
  cases hov : kv.2 with
  | none => rw [hov] at h; simp at h
  | some v => simp [hov]

/-- Encoding a record on a fresh serializer produces exactly
`recordText fields`, when every present field value is a renderable
leaf. -/
theorem encode_struct (name : String) (fields : List (String × Option Value))
    (H : fields.all fieldRenderable = true) :
    encode (.vStruct name fields) = .ok (recordText fields) := by
  obtain ⟨cf, hrun⟩ := runFields_renders fields
    { top_parsed := true, output := "" } (fieldRenderable_spec fields H)
  simp [encode, serializeValue, serialize_struct, KeyValueSerializer.new,
    KeyValueSerializer.into_output, hrun]

/-- Sign extension of an `N`-bit pattern to 64 bits preserves the
two's-complement value, for any width `1 ≤ N ≤ 64`. -/
theorem signExtend64_sound (N n : Nat) (hN1 : 1 ≤ N) (hN : N ≤ 64) :
    twosComplement 64 (signExtend64 N n) = twosComplement N n := by
  have h3 : 2 ^ (N - 1) + 2 ^ (N - 1) = 2 ^ N := by
    rw [← Nat.two_mul, ← Nat.pow_succ']
    congr 1
    omega
  have h1 : 2 ^ (N - 1) ≤ 2 ^ 63 :=
    Nat.pow_le_pow_right (by norm_num) (by omega)
  have hBi : ((2 ^ N : Nat) : Int) = (2 : Int) ^ N := by push_cast; ring
  unfold twosComplement signExtend64
  by_cases hn : n < 2 ^ (N - 1)
  · simp only [if_pos hn]
    rw [if_pos (by omega)]
  · simp only [if_neg hn]
    rw [if_neg (by omega)]
    omega

/-- C5 (as stated) is false at a concrete input: an ordered list (seq)
offered to the dispatcher makes the encoder panic via `unimplemented!`,
which is not the returned generic `Err(std::fmt::Error)` signal. -/
theorem C5_counterexample :
    serializeValue KeyValueSerializer.new (.vSeq []) =
      .panic "not implemented" ∧
    serializeValue KeyValueSerializer.new (.vSeq []) ≠
      (.fmtErr : Outcome KeyValueSerializer) := by
  refine ⟨by simp [serializeValue], by simp [serializeValue]⟩

/-- C5 (amended): every compositional value kind — seq, map, tuple,
tuple struct, tuple variant, struct variant, or byte sequence — offered
to the dispatcher, at the top level or as a field value inside a
record, makes the encoder abort with an `unimplemented!` panic rather
than return the generic error. -/
theorem C5_compositional_kinds_panic (s : KeyValueSerializer) (c : Nat)
    (key : String) (xs : List Value) (ps : List (Value × Value))
    (name variant : String) (idx : Nat) (bs : List Nat)
    (fs : List (String × Value)) :
    serializeValue s (.vSeq xs) = .panic "not implemented" ∧
    serializeValue s (.vMap ps) = .panic "not implemented" ∧
    serializeValue s (.vTuple xs) = .panic "not implemented" ∧
    serializeValue s (.vTupleStruct name xs) = .panic "not implemented" ∧
    serializeValue s (.vTupleVariant name idx variant xs) =
      .panic "not implemented" ∧
    serializeValue s (.vStructVariant name idx variant fs) =
      .panic "not implemented" ∧
    serializeValue s (.vBytes bs) = .panic "not implemented" ∧
    serialize_field s c key (.vSeq xs) = .panic "not implemented" := by
  refine ⟨?_, ?_, ?_, ?_, ?_, ?_, ?_, ?_⟩ <;>
    simp [serializeValue, serialize_bytes, serialize_field]

/-- C6 (as stated) is false at a concrete input: the absent-value
marker reaching the dispatcher directly triggers the `unreachable!`
panic, which is not the returned generic `Err(std::fmt::Error)`
signal. -/
theorem C6_counterexample :
    serializeValue KeyValueSerializer.new .vNone =
      .panic "None should have been skipped in serialization" ∧
    serializeValue KeyValueSerializer.new .vNone ≠
      (.fmtErr : Outcome KeyValueSerializer) := by
  refine ⟨by simp [serializeValue, serialize_none],
    by simp [serializeValue, serialize_none]⟩

/-- C6 (amended): when the absent-value marker (`None`) reaches the
dispatcher directly, the encoder aborts with the defensive
`unreachable!` panic — a fatal condition, not the returned generic
error. -/
theorem C6_none_is_defensive_panic (s : KeyValueSerializer) :
    serializeValue s .vNone =
      .panic "None should have been skipped in serialization" := by
  simp [serializeValue, serialize_none]

/-- C7: serializing a present optional containing `v` is literally the
same computation as serializing `v` directly — same output text, same
outcome, from every serializer state; no presence marker is emitted. -/
theorem C7_some_transparent (s : KeyValueSerializer) (v : Value) :
    serializeValue s (.vSome v) = serializeValue s v := by
  simp [serializeValue]

/-- C9: the dispatcher renders booleans as exactly the capitalized
literals `True` and `False`, which differ from the lowercase
spellings. -/
theorem C9_bool_literals (s : KeyValueSerializer) :
    serialize_bool s true = .ok { s with output := s.output ++ "True" } ∧
    serialize_bool s false = .ok { s with output := s.output ++ "False" } ∧
    (∀ b, serializeValue s (.vBool b) = serialize_bool s b) ∧
    "True" ≠ "true" ∧ "False" ≠ "false" := by
  refine ⟨rfl, rfl, fun b => by simp [serializeValue], by decide, by decide⟩

/-- C10: a newtype variant discards the enum and variant names entirely
and renders only its payload, from every state; in particular a field
holding `Speed(42)` renders as `speed=42`, and at top level `Speed(42)`
renders as `42`, not `Speed` or `Speed=42`. -/
theorem C10_newtype_variant_payload_only (s : KeyValueSerializer)
    (name variant : String) (idx : Nat) (v : Value) :
    serializeValue s (.vNewtypeVariant name idx variant v) =
      serializeValue s v ∧
    encode (.vNewtypeVariant "Color" 1 "Speed" (.vU32 42)) = .ok "42" ∧
    encode (.vStruct "S" [("speed",
      some (.vNewtypeVariant "Color" 1 "Speed" (.vU32 42)))]) =
      .ok "speed=42" := by
  refine ⟨by simp [serializeValue], by decide, by decide⟩

/-- C8: for every signed width the dispatcher appends exactly the
base-10 decimal text of the *original* value (the two's-complement
value of the width-`N` bit pattern, a leading minus sign when
negative): widening to `i64` by sign extension never changes the
rendered digits.  For the unsigned widths the `u64` widening is the
identity on the value and the decimal digits are appended
unchanged. -/
theorem C8_integer_widening_preserves_digits (s : KeyValueSerializer)
    (n8 n16 n32 n64 m8 m16 m32 m64 : Nat)
    (h8 : n8 < 2 ^ 8) (h16 : n16 < 2 ^ 16) (h32 : n32 < 2 ^ 32)
    (h64 : n64 < 2 ^ 64) (g8 : m8 < 2 ^ 8) (g16 : m16 < 2 ^ 16)
    (g32 : m32 < 2 ^ 32) (g64 : m64 < 2 ^ 64) :
    serialize_i8 s n8 =
      .ok { s with output :=
        s.output ++ decimalSigned (twosComplement 8 n8) } ∧
    serialize_i16 s n16 =
      .ok { s with output :=
        s.output ++ decimalSigned (twosComplement 16 n16) } ∧
    serialize_i32 s n32 =
      .ok { s with output :=
        s.output ++ decimalSigned (twosComplement 32 n32) } ∧
    serialize_i64 s n64 =
      .ok { s with output :=
        s.output ++ decimalSigned (twosComplement 64 n64) } ∧
    serialize_u8 s m8 =
      .ok { s with output := s.output ++ decimalUnsigned m8 } ∧
    serialize_u16 s m16 =
      .ok { s with output := s.output ++ decimalUnsigned m16 } ∧
    serialize_u32 s m32 =
      .ok { s with output := s.output ++ decimalUnsigned m32 } ∧
    serialize_u64 s m64 =
      .ok { s with output := s.output ++ decimalUnsigned m64 } := by
  refine ⟨?_, ?_, ?_, ?_, rfl, rfl, rfl, rfl⟩
  · rw [serialize_i8, serialize_signed,
      signExtend64_sound 8 n8 (by norm_num) (by norm_num)]
  · rw [serialize_i16, serialize_signed,
      signExtend64_sound 16 n16 (by norm_num) (by norm_num)]
  · rw [serialize_i32, serialize_signed,
      signExtend64_sound 32 n32 (by norm_num) (by norm_num)]
  · rw [serialize_i64, serialize_signed]

theorem C8_integer_widening_preserves_digits_witness :
    serialize_i8 KeyValueSerializer.new 255 =
      .ok { KeyValueSerializer.new with output :=
        (KeyValueSerializer.new.output ++
          decimalSigned (twosComplement 8 255)) } ∧
    serialize_i16 KeyValueSerializer.new 65535 =
      .ok { KeyValueSerializer.new with output :=
        (KeyValueSerializer.new.output ++
          decimalSigned (twosComplement 16 65535)) } ∧
    serialize_i32 KeyValueSerializer.new 7 =
      .ok { KeyValueSerializer.new with output :=
        (KeyValueSerializer.new.output ++
          decimalSigned (twosComplement 32 7)) } ∧
    serialize_i64 KeyValueSerializer.new 9223372036854775808 =
      .ok { KeyValueSerializer.new with output :=
        (KeyValueSerializer.new.output ++
          decimalSigned (twosComplement 64 9223372036854775808)) } ∧
    serialize_u8 KeyValueSerializer.new 200 =
      .ok { KeyValueSerializer.new with output :=
        (KeyValueSerializer.new.output ++ decimalUnsigned 200) } ∧
    serialize_u16 KeyValueSerializer.new 5 =
      .ok { KeyValueSerializer.new with output :=
        (KeyValueSerializer.new.output ++ decimalUnsigned 5) } ∧
    serialize_u32 KeyValueSerializer.new 42 =
      .ok { KeyValueSerializer.new with output :=
        (KeyValueSerializer.new.output ++ decimalUnsigned 42) } ∧
    serialize_u64 KeyValueSerializer.new 0 =
      .ok { KeyValueSerializer.new with output :=
        (KeyValueSerializer.new.output ++ decimalUnsigned 0) } :=
  C8_integer_widening_preserves_digits KeyValueSerializer.new
    255 65535 7 9223372036854775808 200 5 42 0
    (by norm_num) (by norm_num) (by norm_num) (by norm_num)
    (by norm_num) (by norm_num) (by norm_num) (by norm_num)

/-- C1 (as stated) is false at the claim's own concrete input: with the
counter initialized to the declared field count 2, the record
`{a: present(5), b: absent}` yields `"a=5 "` with a stray trailing
space, not `"a=5"`. -/
theorem C1_counterexample :
    encode (.vStruct "S" [("a", some (.vI32 5)), ("b", none)]) =
      .ok "a=5 " ∧
    encode (.vStruct "S" [("a", some (.vI32 5)), ("b", none)]) ≠
      .ok "a=5" := by
  constructor
  · decide
  · decide

/-- C1 (amended): with the counter initialized to the declared field
count `N` and skip/render invoked per field in declared order, the
output is exactly the `N - k` present `key=value` tokens, in unchanged
relative order, joined by single spaces with no leading separator — but
a single stray trailing space appears exactly when at least one field
is present and the last declared field is absent. -/
theorem C1_tokens_and_separators (name : String)
    (fields : List (String × Option Value))
    (H : fields.all fieldRenderable = true) :
    encode (.vStruct name fields) =
      .ok (joinSp (tokens fields) ++ trailingSp fields) ∧
    (tokens fields).length = fields.length - absentCount fields := by
  refine ⟨?_, tokens_length fields⟩
  rw [encode_struct name fields H, recordText_eq_joinSp]

theorem C1_tokens_and_separators_witness :
    encode (.vStruct "S" [("a", some (.vI32 5)), ("b", none)]) =
      .ok (joinSp (tokens [("a", some (.vI32 5)), ("b", none)]) ++
        trailingSp [("a", some (.vI32 5)), ("b", none)]) ∧
    (tokens [("a", some (.vI32 5)), ("b", none)]).length =
      2 - absentCount [("a", some (.vI32 5)), ("b", none)] :=
  C1_tokens_and_separators "S" [("a", some (.vI32 5)), ("b", none)]
    (by decide)

/-- C2 (as stated) is false at a concrete input: `serialize_field`
invoked with counter 1 leaves the counter at 1, not at its prior value
minus one. -/
theorem C2_counterexample :
    serialize_field { top_parsed := true, output := "" } 1 "a"
      (.vBool true) =
      .ok ({ top_parsed := true, output := "a=True" }, 1) ∧
    (1 : Nat) ≠ 1 - 1 := by
  constructor
  · decide
  · decide

/-- C2 (amended): `skip_field` decrements the counter by exactly one
(for any positive counter), but `serialize_field` decrements it by one
exactly when the counter was greater than one, and leaves it unchanged
otherwise. -/
theorem C2_counter_updates (s : KeyValueSerializer) (c : Nat)
    (key : String) (v : Value) (s' : KeyValueSerializer) (c' : Nat)
    (hc : 0 < c) (h : serialize_field s c key v = .ok (s', c')) :
    skip_field s c key = .ok (s, c - 1) ∧
    c' = if 1 < c then c - 1 else c := by
  constructor
  · rw [skip_field, if_neg (by omega)]
  · simp only [serialize_field] at h
    rcases hser : serializeValue { s with output := s.output ++ key ++ "=" }
        v with s1 | _ | m <;> simp only [hser] at h
    · by_cases h1 : 1 < c
      · rw [if_pos h1] at h
        simp only [Outcome.ok.injEq, Prod.mk.injEq] at h
        rw [if_pos h1]
        exact h.2.symm
      · rw [if_neg h1] at h
        simp only [Outcome.ok.injEq, Prod.mk.injEq] at h
        rw [if_neg h1]
        exact h.2.symm
    · simp at h
    · simp at h

theorem C2_counter_updates_witness :
    skip_field KeyValueSerializer.new 2 "k" =
      .ok (KeyValueSerializer.new, 1) ∧
    (1 : Nat) = if 1 < 2 then 2 - 1 else 2 :=
  C2_counter_updates KeyValueSerializer.new 2 "k" (.vBool true)
    { top_parsed := false, output := "k=True " } 1 (by decide) (by decide)

/-- C3: the first `serialize_struct` on a fresh instance succeeds and
sets the top-level-consumed flag; once the flag is set, a record
offered directly or as a record-valued field inside the first record is
rejected with the generic error; and a fresh instance offered the
record succeeds. -/
theorem C3_at_most_one_record (name name2 sname key : String)
    (len len2 c : Nat) (sfields fields : List (String × Option Value))
    (s : KeyValueSerializer) (hs : s.top_parsed = true)
    (H : fields.all fieldRenderable = true) :
    serialize_struct KeyValueSerializer.new name len =
      .ok ({ top_parsed := true, output := "" }, len) ∧
    serialize_struct s name2 len2 = .fmtErr ∧
    serialize_field s c key (.vStruct sname sfields) = .fmtErr ∧
    encode (.vStruct name fields) = .ok (recordText fields) := by
  refine ⟨rfl, ?_, ?_, encode_struct name fields H⟩
  · simp [serialize_struct, hs]
  · simp [serialize_field, serializeValue, serialize_struct, hs]

theorem C3_at_most_one_record_witness :
    serialize_struct KeyValueSerializer.new "S" 1 =
      .ok ({ top_parsed := true, output := "" }, 1) ∧
    serialize_struct { top_parsed := true, output := "x" } "T" 1 =
      .fmtErr ∧
    serialize_field { top_parsed := true, output := "x" } 1 "inner"
      (.vStruct "T" []) = .fmtErr ∧
    encode (.vStruct "S" [("a", some (.vBool true))]) =
      .ok (recordText [("a", some (.vBool true))]) :=
  C3_at_most_one_record "S" "T" "T" "inner" 1 1 1 []
    [("a", some (.vBool true))] { top_parsed := true, output := "x" }
    rfl (by decide)

/-- C4: for a record all of whose `N` fields are present, the output is
exactly the `N` `key=value` tokens in declared order joined by single
spaces, with no leading and no trailing space. -/
theorem C4_all_present_output (name : String)
    (fields : List (String × Option Value))
    (Hp : fields.all (fun kv => kv.2.isSome) = true)
    (H : fields.all fieldRenderable = true) :
    encode (.vStruct name fields) = .ok (joinSp (tokens fields)) ∧
    (tokens fields).length = fields.length := by
  have hla : lastAbsent fields = false :=
    lastAbsent_all_present fields (fun kv hkv => List.all_eq_true.mp Hp kv hkv)
  have hzero : absentCount fields = 0 := absentCount_all_present fields Hp
  constructor
  · rw [encode_struct name fields H, recordText_eq_joinSp, trailingSp]
    by_cases ht : tokens fields = []
    · simp [ht, String.append_empty]
    · simp [ht, hla, String.append_empty]
  · have := tokens_length fields
    omega

theorem C4_all_present_output_witness :
    encode (.vStruct "MyStruct"
      [("key2", some (.vI32 42)), ("key3", some (.vBool true))]) =
      .ok (joinSp (tokens
        [("key2", some (.vI32 42)), ("key3", some (.vBool true))])) ∧
    (tokens
      [("key2", some (.vI32 42)), ("key3", some (.vBool true))]).length =
      2 :=
  C4_all_present_output "MyStruct"
    [("key2", some (.vI32 42)), ("key3", some (.vBool true))]
    (by decide) (by decide)

end SerdeKeyValue
